import Mathlib

/-!
Verification development for the hound investigation-scheduling engine.

This file gives a shallow embedding, in Lean, of the parts of the
repository that the checked properties are about:

* `src/llm/pricing.py` — `PricingCalculator.calculate_cost` and
  `PricingCalculator._calculate_tiered_cost` (simple and tiered pricing);
* `src/llm/token_tracker.py` — `TokenTracker.track_usage` /
  `get_summary` / `_save_to_file`, with the non-reentrant
  `threading.Lock` modelled explicitly;
* `src/commands/agent.py` — the steering helpers
  (`_read_steering_entries`, `_find_latest_urgent_steer`,
  `_consume_steer`, `_is_global_steer`), the batch planner
  (`AgentRunner._plan_investigations`) and the planning/execution loop
  inside `AgentRunner.run`.

Numbers follow the source: token counts and thresholds are integers
(`ℤ`), money and timestamps are exact rationals (`ℚ`) standing for the
Python floats, and text is a list of characters (`Str`), so that
Python's substring and truthiness tests translate directly.  External
collaborators (the reasoning worker, the strategist/planner, the clock,
the plan-store persistence and the steering file) are oracles supplied
through environment records, exactly at the interfaces the code uses.
-/

namespace Hound

/-- Text is modelled as a list of characters, so that Python's
substring (`in`), prefix and truthiness (`if s:`) tests have direct
counterparts. -/
abbrev Str := List Char

/-! ## Pricing (`src/llm/pricing.py`) -/

/-- One entry of a tiered pricing table (`PricingTier` in the spec, a
`{"threshold", "input_cost", "output_cost"}` dict in
`PricingCalculator._load_pricing`). -/
structure PricingTier where
  threshold : ℤ
  input_cost : ℚ
  output_cost : ℚ
deriving DecidableEq

/-- Selector for the `cost_type` argument of
`_calculate_tiered_cost` (`"input_cost"` or `"output_cost"`). -/
inductive CostType
  | input
  | output
deriving DecidableEq

/-- `tier.get(cost_type, 0.0)`. -/
def rateOf (ct : CostType) (t : PricingTier) : ℚ :=
  match ct with
  | .input => t.input_cost
  | .output => t.output_cost

/-- Python's `min` on two integers, written with an explicit comparison
so that concrete instances evaluate inside the kernel. -/
def intMin (a b : ℤ) : ℤ := if a ≤ b then a else b

/-- The tier-search loop of `_calculate_tiered_cost`
(pricing.py lines 166-171): `current_tier_idx` starts at `0`; for each
tier in order, if `current_cumulative >= tier["threshold"]` the index
is set to that tier's position, otherwise the loop breaks.  `i` is the
position of the head of the remaining list, `idx` the index recorded so
far. -/
def findStartIdxAux (cml : ℤ) : List PricingTier → ℕ → ℕ → ℕ
  | [], _, idx => idx
  | t :: rest, i, idx =>
    if t.threshold ≤ cml then findStartIdxAux cml rest (i + 1) i else idx

/-- `current_tier_idx` as computed by pricing.py lines 166-171. -/
def findStartIdx (cml : ℤ) (tiers : List PricingTier) : ℕ :=
  findStartIdxAux cml tiers 0 0

/-- The `while tokens_remaining > 0 and current_tier_idx < len(tiers)`
loop of `_calculate_tiered_cost` (pricing.py lines 174-195), recursing
over the suffix of the tier list that starts at `current_tier_idx`:
if the suffix is not the last tier, charge
`min(tokens_remaining, next_threshold - current_cumulative)` tokens at
this tier's rate, else charge all remaining tokens; then advance
cumulative and remaining and move to the next tier. -/
def chargeLoop (unit : ℚ) (ct : CostType) : List PricingTier → ℤ → ℤ → ℚ
  | [], _, _ => 0
  | t :: rest, remaining, cml =>
    if 0 < remaining then
      let atRate : ℤ :=
        match rest with
        | [] => remaining
        | t2 :: _ => intMin remaining (t2.threshold - cml)
      (atRate : ℚ) / unit * rateOf ct t +
        chargeLoop unit ct rest (remaining - atRate) (cml + atRate)
    else 0

/-- `PricingCalculator._calculate_tiered_cost(tokens, cumulative_tokens,
tiers, unit, cost_type)` (pricing.py lines 137-197): returns `0.0` when
`tokens` is falsy (zero) or there are no tiers, otherwise runs the
charging loop starting at the tier found by the search loop. -/
def calculateTieredCost (tokens cml : ℤ) (tiers : List PricingTier)
    (unit : ℚ) (ct : CostType) : ℚ :=
  if tokens = 0 ∨ tiers = [] then 0
  else chargeLoop unit ct (tiers.drop (findStartIdx cml tiers)) tokens cml

/-- A `_pricing_cache` entry.  `_load_pricing` only produces `"simple"`
and `"tiered"` entries; `other` stands for an entry whose `"type"` is
neither, which `calculate_cost` answers with zero cost (the final
`return (0.0, 0.0, 0.0)` at pricing.py line 135). -/
inductive Pricing
  | simple (unit : ℚ) (input_cost output_cost : ℚ)
  | tiered (unit : ℚ) (tiers : List PricingTier)
  | other
deriving DecidableEq

/-- `PricingCalculator.calculate_cost(model_key, input_tokens,
output_tokens, cumulative_input_tokens, cumulative_output_tokens)`
(pricing.py lines 78-135).  The pricing cache is an association list
keyed by `model_key`. -/
def calculate_cost (cache : List (String × Pricing)) (model_key : String)
    (input_tokens output_tokens cml_in cml_out : ℤ) : ℚ × ℚ × ℚ :=
  match cache.lookup model_key with
  | none => (0, 0, 0)
  | some (.simple unit ic oc) =>
    let input_cost := (input_tokens : ℚ) / unit * ic
    let output_cost := (output_tokens : ℚ) / unit * oc
    (input_cost, output_cost, input_cost + output_cost)
  | some (.tiered unit tiers) =>
    let input_cost := calculateTieredCost input_tokens cml_in tiers unit .input
    let output_cost := calculateTieredCost output_tokens cml_out tiers unit .output
    (input_cost, output_cost, input_cost + output_cost)
  | some .other => (0, 0, 0)

/-- Spec-side tier search, written from the specification's words: find
the tier `t` such that `threshold[t] ≤ cumulative < threshold[t+1]` by
skipping a tier as long as the *next* tier's threshold is still at most
the cumulative count. -/
def specFind (cml : ℤ) : List PricingTier → List PricingTier
  | [] => []
  | [t] => [t]
  | t :: t2 :: rest =>
    if t2.threshold ≤ cml then specFind cml (t2 :: rest) else t :: t2 :: rest

/-- Spec-side charging, written from the specification's words: charge
`min(remaining_tokens, threshold[t+1]-cumulative)` tokens at tier `t`'s
rate, advance cumulative and remaining, and repeat into subsequent
tiers; the final tier absorbs all remaining tokens at its own rate. -/
def specCharge (unit : ℚ) (ct : CostType) : List PricingTier → ℤ → ℤ → ℚ
  | [], _, _ => 0
  | [t], remaining, _ =>
    if 0 < remaining then (remaining : ℚ) / unit * rateOf ct t else 0
  | t :: t2 :: rest, remaining, cml =>
    if 0 < remaining then
      let chunk := intMin remaining (t2.threshold - cml)
      (chunk : ℚ) / unit * rateOf ct t +
        specCharge unit ct (t2 :: rest) (remaining - chunk) (cml + chunk)
    else 0

/-- Tiered cost as the specification describes it. -/
def specTieredCost (tokens cml : ℤ) (tiers : List PricingTier)
    (unit : ℚ) (ct : CostType) : ℚ :=
  specCharge unit ct (specFind cml tiers) tokens cml

/-- `t.threshold ≤ cml`, the per-tier test of the search loop. -/
def tierLE (cml : ℤ) (t : PricingTier) : Bool := t.threshold ≤ cml

/-! ## Token tracking (`src/llm/token_tracker.py`)

`TokenTracker` guards all mutation with a single non-reentrant
`threading.Lock`.  The scheduler is single-threaded, so the lock is
modelled by a `lockHeld` flag on the state: acquiring a held lock from
the same thread blocks forever, which the embedding renders as `none`
(the operation never returns).  Fields follow `TokenTracker.__init__`;
`outputFile` records whether `set_output_file` has configured a file. -/

/-- A `TokenUsage` record (token_tracker.py lines 9-35).  The timestamp
string is produced by `datetime.now().isoformat()` and is passed in as
an oracle value. -/
structure TokenUsage where
  timestamp : String
  provider : String
  model : String
  input_tokens : ℤ
  output_tokens : ℤ
  total_tokens : ℤ
  profile : Option String
  input_cost : ℚ
  output_cost : ℚ
  total_cost : ℚ
deriving DecidableEq

/-- Per-model aggregate entry of `usage_by_model`. -/
structure ModelAgg where
  input_tokens : ℤ
  output_tokens : ℤ
  total_tokens : ℤ
  call_count : ℤ
  input_cost : ℚ
  output_cost : ℚ
  total_cost : ℚ
deriving DecidableEq

/-- The zero-initialised aggregate inserted on first use of a model key
(token_tracker.py lines 82-91). -/
def emptyAgg : ModelAgg := ⟨0, 0, 0, 0, 0, 0, 0⟩

/-- `TokenTracker` state. -/
structure Tracker where
  usage_history : List TokenUsage
  usage_by_model : List (String × ModelAgg)
  cumulative_tokens : List (String × (ℤ × ℤ))
  outputFile : Bool
  lockHeld : Bool
deriving DecidableEq

/-- A fresh tracker (`TokenTracker.__init__`). -/
def Tracker.init : Tracker := ⟨[], [], [], false, false⟩

/-- Association-list update used for the `usage_by_model` and
`_cumulative_tokens` dict mutations: replace the value under `k`. -/
def setAssoc {β : Type} (l : List (String × β)) (k : String) (v : β) :
    List (String × β) :=
  match l with
  | [] => [(k, v)]
  | (k', v') :: rest => if k' = k then (k, v) :: rest else (k', v') :: setAssoc rest k v

/-- The summary dictionary built by `get_summary`
(token_tracker.py lines 126-138): totals are sums over the history. -/
structure Summary where
  input_tokens : ℤ
  output_tokens : ℤ
  total_tokens : ℤ
  call_count : ℕ
  input_cost : ℚ
  output_cost : ℚ
  total_cost : ℚ
  by_model : List (String × ModelAgg)
  history : List TokenUsage
deriving DecidableEq

/-- The body of `get_summary` once the lock is held. -/
def mkSummary (t : Tracker) : Summary :=
  { input_tokens := (t.usage_history.map (·.input_tokens)).sum
    output_tokens := (t.usage_history.map (·.output_tokens)).sum
    total_tokens := (t.usage_history.map (·.total_tokens)).sum
    call_count := t.usage_history.length
    input_cost := (t.usage_history.map (·.input_cost)).sum
    output_cost := (t.usage_history.map (·.output_cost)).sum
    total_cost := (t.usage_history.map (·.total_cost)).sum
    by_model := t.usage_by_model
    history := t.usage_history }

/-- `TokenTracker.get_summary` (token_tracker.py lines 123-138): takes
`self._lock` (`with self._lock:`).  If the calling thread already holds
the non-reentrant lock, the acquisition blocks forever: `none`. -/
def getSummary (t : Tracker) : Option Summary :=
  if t.lockHeld then none else some (mkSummary t)

/-- `TokenTracker._save_to_file` (token_tracker.py lines 114-121):
returns immediately when no output file is configured, otherwise calls
`self.get_summary()` — which acquires the lock — and writes the result
(the file write itself is outside the model). -/
def saveToFile (t : Tracker) : Option Unit :=
  if t.outputFile then (getSummary t).map (fun _ => ()) else some ()

/-- `TokenTracker.track_usage` (token_tracker.py lines 55-112): under
`self._lock`, build a `TokenUsage`, append it to the history, update
the per-model aggregates and the cumulative token counters, and — if an
output file is configured — call `_save_to_file` from inside the
critical section.  `now` is the `datetime.now().isoformat()` oracle.
`none` means the call never returns (blocked on the lock). -/
def trackUsage (t : Tracker) (now provider model : String)
    (input_tokens output_tokens : ℤ) (profile : Option String)
    (input_cost output_cost total_cost : ℚ) : Option Tracker :=
  if t.lockHeld then none
  else
    let t := { t with lockHeld := true }
    let usage : TokenUsage :=
      ⟨now, provider, model, input_tokens, output_tokens,
        input_tokens + output_tokens, profile, input_cost, output_cost, total_cost⟩
    let model_key := provider ++ ":" ++ model
    let agg := (t.usage_by_model.lookup model_key).getD emptyAgg
    let agg' : ModelAgg :=
      ⟨agg.input_tokens + input_tokens, agg.output_tokens + output_tokens,
        agg.total_tokens + (input_tokens + output_tokens), agg.call_count + 1,
        agg.input_cost + input_cost, agg.output_cost + output_cost,
        agg.total_cost + total_cost⟩
    let cml := (t.cumulative_tokens.lookup model_key).getD (0, 0)
    let cml' := (cml.1 + input_tokens, cml.2 + output_tokens)
    let t := { t with
      usage_history := t.usage_history ++ [usage]
      usage_by_model := setAssoc t.usage_by_model model_key agg'
      cumulative_tokens := setAssoc t.cumulative_tokens model_key cml' }
    if t.outputFile then
      match saveToFile t with
      | none => none
      | some _ => some { t with lockHeld := false }
    else some { t with lockHeld := false }

/-- `TokenTracker.set_output_file` (token_tracker.py lines 49-53): set
the output file and initialise it via `_save_to_file` (no lock held at
that point). -/
def setOutputFile (t : Tracker) : Option Tracker :=
  let t := { t with outputFile := true }
  (saveToFile t).map (fun _ => t)

/-! ## Steering channel (`src/commands/agent.py`, steering helpers) -/

/-- One entry of the steering log as `_read_steering_entries` returns
it: a `{'ts': float, 'text': str}` dict. -/
structure SteerEnt where
  ts : ℚ
  text : Str
deriving DecidableEq

/-- A stripped line of `steering.jsonl`, classified by what
`json.loads` and the field extraction at agent.py lines 811-816 do with
it.  `blank` is a line that is empty after `strip()`; `jsonLine ts txt`
is a successfully parsed record with its extracted `ts` and stripped
`text`/`message`/`note` field; `malformed c` is a non-blank line `c` on
which parsing or extraction raised. -/
inductive RawLine
  | blank
  | jsonLine (ts : ℚ) (text : Str)
  | malformed (content : Str)
deriving DecidableEq

/-- Python's `out[-limit:]`.  Note `out[-0:]` is the whole list, so a
limit of `0` does not truncate. -/
def pyTail {α : Type} (limit : ℕ) (l : List α) : List α :=
  if limit = 0 then l else l.drop (l.length - limit)

/-- `AgentRunner._read_steering_entries(limit)` (agent.py lines
796-823): walk the file line by line; skip blank lines; for a parsed
record keep `{'ts': ts, 'text': txt}` when the extracted text is
non-empty; on a parse failure append the fallback entry
`{'ts': 0.0, 'text': ln}`; finally keep only the last `limit` entries
(`out[-limit:]`). -/
def readSteeringEntries (limit : ℕ) (lines : List RawLine) : List SteerEnt :=
  pyTail limit
    (lines.foldl
      (fun out ln =>
        match ln with
        | .blank => out
        | .jsonLine ts txt => if txt ≠ [] then out ++ [⟨ts, txt⟩] else out
        | .malformed c => out ++ [⟨0, c⟩])
      [])

/-- Per-line behaviour of `_read_steering_entries`, as a specification
value: which entry (if any) a line contributes. -/
def lineEntry (ln : RawLine) : Option SteerEnt :=
  match ln with
  | .blank => none
  | .jsonLine ts txt => if txt ≠ [] then some ⟨ts, txt⟩ else none
  | .malformed c => some ⟨0, c⟩

/-- `AgentRunner._consume_steer(ts)` (agent.py lines 855-857) acting on
the persisted cursor value: `if ts and ts > cursor: write ts`.  `ts`
is truthy exactly when it is non-zero. -/
def consume (cursor ts : ℚ) : ℚ :=
  if ts ≠ 0 ∧ cursor < ts then ts else cursor

/-- `_consume_steer` together with whether it wrote the cursor file
(whether `_set_last_consumed_steer_ts` was called). -/
def consumeW (cursor ts : ℚ) : Bool × ℚ :=
  if ts ≠ 0 ∧ cursor < ts then (true, ts) else (false, cursor)

/-- The `verbs` keyword tuple of `_find_latest_urgent_steer`
(agent.py lines 840-844). -/
def urgentVerbs : List Str :=
  ["investigate", "investtgate", "investigate", "check", "look at", "look into",
   "focus on", "analyze", "audit", "review", "examine", "scan", "probe", "dig into",
   "right now", "next", "please investigate", "please check"].map String.toList

/-- The `globals` keyword tuple shared by `_find_latest_urgent_steer`
(agent.py lines 845-850) and `_is_global_steer` (lines 1573-1578). -/
def globalMarkers : List Str :=
  ["whole app", "entire app", "entire codebase", "whole codebase", "all contracts",
   "every contract", "system-wide", "system wide", "project-wide", "project wide",
   "across the codebase", "across the repo", "across modules", "end-to-end", "e2e",
   "globally", "everywhere", "full audit", "full review", "scan the entire",
   "scan all"].map String.toList

/-- Python `needle in haystack` on strings. -/
def containsSub (needle haystack : Str) : Bool := decide (needle <:+: haystack)

/-- The actionable-directive classifier applied by
`_find_latest_urgent_steer` to a lowercased text (agent.py line 851):
a case-insensitive substring match against either keyword set. -/
def steerMatches (text : Str) : Bool :=
  let low := text.map Char.toLower
  urgentVerbs.any (fun k => containsSub k low) ||
    globalMarkers.any (fun k => containsSub k low)

/-- `AgentRunner._find_latest_urgent_steer` scanning loop (agent.py
lines 833-853) over `reversed(entries)` (newest first): skip entries
whose timestamp is not strictly newer than the consumed cursor; return
the first remaining entry whose text matches the classifier. -/
def findUrgentIn (lastTs : ℚ) : List SteerEnt → Option SteerEnt
  | [] => none
  | e :: rest =>
    if e.ts ≤ lastTs then findUrgentIn lastTs rest
    else if steerMatches e.text then some e
    else findUrgentIn lastTs rest

/-- `AgentRunner._find_latest_urgent_steer` (agent.py lines 825-853):
read the last 80 steering entries and scan them newest-first. -/
def findLatestUrgentSteer (lastTs : ℚ) (entries : List SteerEnt) : Option SteerEnt :=
  findUrgentIn lastTs entries.reverse

/-- `_is_global_steer(text)` (agent.py lines 1566-1584): lowercase the
text; empty text is not global; otherwise test the global-marker
substrings, then the `" across "`-infix / `"across "`-prefix fallback. -/
def isGlobalSteer (text : Str) : Bool :=
  let t := text.map Char.toLower
  if t = [] then false
  else if globalMarkers.any (fun k => containsSub k t) then true
  else if containsSub " across ".toList t || decide ("across ".toList <+: t) then true
  else false

/-- State read and written by the steering fragment of the worker's
progress callback: the `_last_replan_steer` marker, the persisted
steering cursor, and the agent's `_abort_requested` flag. -/
structure CbSt where
  lastReplan : Option Str
  cursor : ℚ
  abortRequested : Bool
deriving DecidableEq

/-- The callback statuses on which steering is checked
(agent.py line 1771). -/
def cbMilestones : List String := ["analyzing", "decision", "executing"]

/-- The mid-investigation steering fragment of the progress callback
`_cb` (agent.py lines 1768-1797): on the milestone statuses, look up
the latest unconsumed urgent directive; if it is fresh (differs from
`_last_replan_steer`) and `_is_global_steer` holds, record it, request
an abort on the agent, and consume its timestamp; otherwise leave the
state unchanged (a targeted directive never aborts in-flight work). -/
def cbSteerStep (entries : List SteerEnt) (status : String) (st : CbSt) : CbSt :=
  if status ∈ cbMilestones then
    match findLatestUrgentSteer st.cursor entries with
    | some ent =>
      if ent.text ≠ [] ∧ some ent.text ≠ st.lastReplan then
        if isGlobalSteer ent.text then
          { lastReplan := some ent.text
            cursor := consume st.cursor ent.ts
            abortRequested := true }
        else st
      else st
    | none => st
  else st

/-! ## Batch planning (`AgentRunner._plan_investigations`) -/

/-- The `SimpleNamespace` investigation items assembled by
`_plan_investigations` and consumed by the execution loop. -/
structure InvItem where
  goal : Str
  focus_areas : List Str
  priority : ℤ
  reasoning : Str
  category : String
  expected_impact : String
  frame_id : Option Str
deriving DecidableEq

/-- A PLANNED frame as returned by `PlanStore.list` (the dict read at
agent.py lines 1079-1088). -/
structure PendingItem where
  question : Str
  artifact_refs : List Str
  priority : ℤ
  rationale : Str
  frame_id : Option Str
deriving DecidableEq

/-- A candidate returned by the external strategist's `plan_next`
(the dict read at agent.py lines 1145-1196). -/
structure Candidate where
  goal : Str
  focus_areas : List Str
  priority : ℤ
  reasoning : Str
  category : String
  expected_impact : String
deriving DecidableEq

/-- The status strings stored in the plan store
(`PlanStatus`; read back at agent.py line 1164 with default
`'planned'`). -/
inductive FrameStatus
  | planned
  | in_progress
  | done
  | dropped
deriving DecidableEq

/-- Python truthiness of an optional string (`if it.get('frame_id'):`):
`None` and the empty string are falsy. -/
def truthyFid (fid : Option Str) : Option Str :=
  match fid with
  | none => none
  | some s => if s = [] then none else some s

/-- The priority-10 ad-hoc frame synthesised from an urgent steering
directive (agent.py lines 1046-1054). -/
def adhocSteerItem (txt : Str) : InvItem :=
  ⟨txt, [], 10, "User steering: prioritize immediately".toList, "suspicion", "high", none⟩

/-- Environment of one `_plan_investigations` call.  External state and
collaborators are oracles at exactly the interfaces the code uses:
the steering file contents, the persisted cursor, the plan store's
PLANNED listing (already priority-ordered by the store), the
strategist's `plan_next`, and the plan store's `propose`/`get`
answers (`propose k` is the result of the `k`-th `propose` call of
this planning round). -/
structure PlanEnv where
  steerLines : List RawLine
  cursor : ℚ
  hasStore : Bool
  pending : List PendingItem
  strategist : ℕ → List Candidate
  propose : ℕ → Bool × Str
  getStatus : Str → FrameStatus

/-- The `propose`-and-decide part of one step-3 iteration of
`_plan_investigations` (agent.py lines 1148-1185): with a plan store,
the `k`-th `propose` call yields `(ok, fid)`; a pre-existing frame
(`ok = false`) is skipped when its status is DONE or IN_PROGRESS, or
when it is PLANNED and already in this batch.  Returns the frame id to
attach, the skip decision, and the next propose-call index. -/
def proposeStep (env : PlanEnv) (existing : List Str) (k : ℕ) :
    Option Str × Bool × ℕ :=
  if env.hasStore then
    let res := env.propose k
    let skip :=
      if res.1 then false
      else
        match env.getStatus res.2 with
        | .done => true
        | .in_progress => true
        | .planned => decide (res.2 ∈ existing)
        | .dropped => false
    (some res.2, skip, k + 1)
  else (none, false, k)

/-- Step 3 of `_plan_investigations` (agent.py lines 1144-1198): fold
over the strategist's candidates; stop once the batch is full; for each
candidate run `proposeStep`; skipped candidates are dropped, the rest
are appended with their frame id, which is also remembered in
`existing_frame_ids` when truthy. -/
def planStep3 (env : PlanEnv) (n : ℕ) :
    List Candidate → List InvItem → List Str → ℕ → List InvItem
  | [], prepared, _, _ => prepared
  | d :: ds, prepared, existing, k =>
    if n ≤ prepared.length then prepared
    else
      let pr := proposeStep env existing k
      if pr.2.1 then planStep3 env n ds prepared existing pr.2.2
      else
        let item : InvItem :=
          ⟨d.goal, d.focus_areas, d.priority, d.reasoning, d.category,
            d.expected_impact, pr.1⟩
        let existing' :=
          match truthyFid pr.1 with
          | some f => existing ++ [f]
          | none => existing
        planStep3 env n ds (prepared ++ [item]) existing' pr.2.2

/-- `AgentRunner._plan_investigations(n)` (agent.py lines 1037-1199).
Returns the assembled batch together with the steering cursor after the
call (the cursor is advanced when an urgent directive is consumed in
step 0).  Step 0 synthesises a priority-10 frame from the latest
unconsumed urgent steering directive; step 1 adds up to `n` PLANNED
frames from the plan store; if the batch is already full it is
truncated to `n` and returned; otherwise step 2/3 top it up with
strategist candidates. -/
def planInvestigations (env : PlanEnv) (n : ℕ) : List InvItem × ℚ :=
  let entries := readSteeringEntries 80 env.steerLines
  let step0 : List InvItem × ℚ :=
    match findLatestUrgentSteer env.cursor entries with
    | some ent => ([adhocSteerItem ent.text], consume env.cursor ent.ts)
    | none => ([], env.cursor)
  let fromPending : List InvItem :=
    if env.hasStore then
      (env.pending.take n).map
        (fun it => ⟨it.question, it.artifact_refs, it.priority, it.rationale,
          "aspect", "medium", it.frame_id⟩)
    else []
  let existing0 : List Str :=
    if env.hasStore then (env.pending.take n).filterMap (fun it => truthyFid it.frame_id)
    else []
  let prepared1 := step0.1 ++ fromPending
  if n ≤ prepared1.length then (prepared1.take n, step0.2)
  else
    let planned := env.strategist (n - prepared1.length)
    (planStep3 env n planned prepared1 existing0 0, step0.2)

/-! ## The planning/execution loop (`AgentRunner.run`) -/

/-- Outcome of one call of the external worker
`self.agent.investigate(goal, max_iterations, progress_callback)`:
either it returns a report — with the agent's `_abort_requested` flag
as the callback left it (set by a global steering directive) — or the
`_TimeLimitReached` exception is raised from inside the progress
callback. -/
inductive WorkerRes
  | done (abortRequested : Bool)
  | timeLimit
deriving DecidableEq

/-- Observable events of the execution loop: worker invocations and
plan-store status updates. -/
inductive Ev
  | workerCall (goal : Str)
  | statusUpd (fid : Str) (st : FrameStatus)
deriving DecidableEq

/-- Terminal status reported by `AgentRunner.run` through
`session_tracker.finalize` (agent.py lines 2092-2093). -/
inductive FinalSt
  | completed
  | interrupted
deriving DecidableEq

/-- Environment of a `run` call.  `clock k` is the elapsed time in
minutes at the `k`-th read of the wall clock; `plan r` is the batch
`_plan_investigations` assembles in planning round `r`; `findUrgent k`
is the result of the `k`-th mid-batch `_find_latest_urgent_steer` call;
`worker k` the outcome of the `k`-th worker invocation.  `timeLimit`
is `self.time_limit_minutes`, with `0` for Python-falsy (no limit). -/
structure RunEnv where
  timeLimit : ℚ
  clock : ℕ → ℚ
  plan : ℕ → List InvItem
  findUrgent : ℕ → Option SteerEnt
  worker : ℕ → WorkerRes
  hasStore : Bool

/-- Mutable state threaded through the loop: oracle cursors, the
`_last_applied_steer` marker, the per-run `executed_frames` set, and
the event trace. -/
structure RunSt where
  clockIdx : ℕ
  urgIdx : ℕ
  wIdx : ℕ
  lastApplied : Option Str
  executed : List Str
  trace : List Ev
deriving DecidableEq

/-- Initial state of a run. -/
def initSt : RunSt := ⟨0, 0, 0, none, [], []⟩

/-- The steering-override SimpleNamespace built at agent.py lines
1659-1667. -/
def overrideItem (txt : Str) : InvItem :=
  ⟨txt, [], 10, "User steering override".toList, "suspicion", "high", none⟩

/-- The `for idx, inv in enumerate(items)` body of `AgentRunner.run`
(agent.py lines 1646-2052).  Returns the state after the batch together
with the `time_up` flag.  Per frame, in source order: (1) the mid-batch
steering override — a fresh urgent directive different from the current
goal replaces the frame about to run by a priority-10 override and is
remembered in `_last_applied_steer`; (2) the time-budget check — if no
time remains the batch is abandoned (`break`, with `time_up` left
unchanged); (3) the duplicate check — a frame whose id was already
executed in this run is marked DROPPED and skipped; (4) the frame is
marked IN_PROGRESS and the worker invoked; a `_TimeLimitReached` from
the callback sets `time_up` and abandons the batch; a steering abort
(`_abort_requested`) abandons the batch without marking DONE; a normal
return appends the outcome, adds the frame id to `executed_frames` and
marks the frame DONE. -/
def execBatch (env : RunEnv) : List InvItem → RunSt → RunSt × Bool
  | [], st => (st, false)
  | inv :: rest, st =>
    -- (1) mid-batch steering override
    let ov : InvItem × RunSt :=
      match env.findUrgent st.urgIdx with
      | some ent =>
        let st := { st with urgIdx := st.urgIdx + 1 }
        if ent.text ≠ [] ∧ some ent.text ≠ st.lastApplied ∧ inv.goal ≠ ent.text then
          (overrideItem ent.text, { st with lastApplied := some ent.text })
        else (inv, st)
      | none => (inv, { st with urgIdx := st.urgIdx + 1 })
    let inv := ov.1
    let st := ov.2
    -- (2) time-budget check before starting the frame
    let tchk : Bool × RunSt :=
      if env.timeLimit ≠ 0 then
        (decide (env.timeLimit - env.clock st.clockIdx ≤ 0),
          { st with clockIdx := st.clockIdx + 1 })
      else (false, st)
    let st := tchk.2
    if tchk.1 then (st, false)
    else
      -- (3) skip duplicate frame ids within the same run
      let f? := truthyFid inv.frame_id
      let isDup : Bool :=
        match f? with
        | some f => decide (f ∈ st.executed)
        | none => false
      if isDup then
        let st :=
          if env.hasStore then
            { st with trace := st.trace ++ [Ev.statusUpd (f?.getD []) .dropped] }
          else st
        execBatch env rest st
      else
        -- (4) IN_PROGRESS, worker call, abort/time-limit handling, DONE
        let st :=
          match f? with
          | some f =>
            if env.hasStore then
              { st with trace := st.trace ++ [Ev.statusUpd f .in_progress] }
            else st
          | none => st
        let st := { st with trace := st.trace ++ [Ev.workerCall inv.goal] }
        let res := env.worker st.wIdx
        let st := { st with wIdx := st.wIdx + 1 }
        match res with
        | .timeLimit => (st, true)
        | .done abort =>
          if abort then (st, false)
          else
            let st :=
              match f? with
              | some f =>
                let st := { st with executed := st.executed ++ [f] }
                if env.hasStore then
                  { st with trace := st.trace ++ [Ev.statusUpd f .done] }
                else st
              | none => st
            execBatch env rest st

/-- The `while True:` planning loop of `AgentRunner.run` (agent.py
lines 1585-2056) together with the final status computation (line
2092): before each round, if a time limit is set and the elapsed time
has reached it, the loop stops; an empty planned batch stops the loop
("audit complete"); otherwise `executed_frames` is reset and the batch
executed; `time_up` (set only by `_TimeLimitReached` from a worker
callback) ends the loop.  The final status is `'interrupted'` iff
`time_up`, else `'completed'`.  `fuel` bounds the number of rounds (the
Python loop may run forever); `none` means the bound was reached. -/
def runLoopAux (env : RunEnv) : ℕ → RunSt → ℕ → Option (FinalSt × RunSt)
  | 0, _, _ => none
  | fuel + 1, st, round =>
    let tchk : Bool × RunSt :=
      if env.timeLimit ≠ 0 then
        (decide (env.timeLimit ≤ env.clock st.clockIdx),
          { st with clockIdx := st.clockIdx + 1 })
      else (false, st)
    let st := tchk.2
    if tchk.1 then some (.completed, st)
    else
      let items := env.plan round
      if items.isEmpty then some (.completed, st)
      else
        let r := execBatch env items { st with executed := [] }
        if r.2 then some (.interrupted, r.1)
        else runLoopAux env fuel r.1 (round + 1)

/-- `AgentRunner.run`'s loop from a fresh state; planning rounds are
numbered from `0`. -/
def runLoop (env : RunEnv) (fuel : ℕ) : Option (FinalSt × RunSt) :=
  runLoopAux env fuel initSt 0

/-! ### Concrete sample environments for witnesses and counterexamples -/

/-- A run whose one-minute budget is already exhausted (elapsed 2
minutes) at the very first budget check. -/
def envPastDeadline : RunEnv :=
  { timeLimit := 1
    clock := fun _ => 2
    plan := fun _ => []
    findUrgent := fun _ => none
    worker := fun _ => .done false
    hasStore := true }

/-- A run with no time limit whose first worker call raises
`_TimeLimitReached` from the progress callback. -/
def envCallbackTimeout : RunEnv :=
  { timeLimit := 0
    clock := fun _ => 0
    plan := fun _ => [⟨"g".toList, [], 5, [], "aspect", "medium", none⟩]
    findUrgent := fun _ => none
    worker := fun _ => .timeLimit
    hasStore := true }

/-- A quiet run environment: no time limit, no steering, workers return
normally, plan store present. -/
def envQuiet : RunEnv :=
  { timeLimit := 0
    clock := fun _ => 0
    plan := fun _ => []
    findUrgent := fun _ => none
    worker := fun _ => .done false
    hasStore := true }

/-- A planning environment whose steering log holds one urgent
targeted directive. -/
def envSteerPlan : PlanEnv :=
  { steerLines := [RawLine.jsonLine 5 "check auth".toList]
    cursor := 0
    hasStore := false
    pending := []
    strategist := fun _ => []
    propose := fun _ => (true, [])
    getStatus := fun _ => .planned }

/-- A planning environment whose steering log holds the targeted
directive "check the login function". -/
def envLoginPlan : PlanEnv :=
  { steerLines := [RawLine.jsonLine 5 "check the login function".toList]
    cursor := 0
    hasStore := false
    pending := []
    strategist := fun _ => []
    propose := fun _ => (true, [])
    getStatus := fun _ => .planned }

/-! ### Pricing lemmas -/

theorem findStartIdxAux_eq (cml : ℤ) :
    ∀ (l : List PricingTier) (i idx : ℕ),
      findStartIdxAux cml l i idx =
        if (l.takeWhile (tierLE cml)).length = 0 then idx
        else i + (l.takeWhile (tierLE cml)).length - 1 := by
  intro l
  induction l with
  | nil => intro i idx; simp [findStartIdxAux]
  | cons t rest ih =>
    intro i idx
    by_cases h : t.threshold ≤ cml
    · have ht : tierLE cml t = true := by simp [tierLE, h]
      rw [findStartIdxAux, if_pos h, ih, List.takeWhile_cons_of_pos ht]
      simp only [List.length_cons]
      by_cases h0 : (rest.takeWhile (tierLE cml)).length = 0
      · rw [if_pos h0, if_neg (by omega)]
        omega
      · rw [if_neg h0, if_neg (by omega)]
        omega
    · have ht : ¬tierLE cml t = true := by simp [tierLE, h]
      rw [findStartIdxAux, if_neg h, List.takeWhile_cons_of_neg ht]
      simp

theorem findStartIdx_eq (cml : ℤ) (tiers : List PricingTier) :
    findStartIdx cml tiers = (tiers.takeWhile (tierLE cml)).length - 1 := by
  rw [findStartIdx, findStartIdxAux_eq]
  by_cases h0 : (tiers.takeWhile (tierLE cml)).length = 0
  · simp [h0]
  · simp [h0]

theorem specFind_eq_drop (cml : ℤ) :
    ∀ tiers : List PricingTier,
      List.Chain' (fun a b => a.threshold ≤ b.threshold) tiers →
      specFind cml tiers =
        tiers.drop ((tiers.takeWhile (tierLE cml)).length - 1) := by
  intro tiers
  induction tiers with
  | nil => intro _; simp [specFind]
  | cons t rest ih =>
    intro hch
    match rest, hch, ih with
    | [], _, _ =>
      by_cases h : tierLE cml t = true
      · rw [specFind, List.takeWhile_cons_of_pos h]
        simp
      · rw [specFind, List.takeWhile_cons_of_neg h]
        simp
    | t2 :: rest', hch, ih =>
      have hsort : t.threshold ≤ t2.threshold := (List.chain'_cons.mp hch).1
      have hch' : List.Chain' (fun a b => a.threshold ≤ b.threshold) (t2 :: rest') :=
        (List.chain'_cons.mp hch).2
      by_cases h2 : t2.threshold ≤ cml
      · have h1 : t.threshold ≤ cml := le_trans hsort h2
        have ht : tierLE cml t = true := by simp [tierLE, h1]
        have ht2 : tierLE cml t2 = true := by simp [tierLE, h2]
        rw [specFind, if_pos h2, ih hch']
        rw [List.takeWhile_cons_of_pos ht, List.takeWhile_cons_of_pos ht2]
        simp only [List.length_cons, Nat.add_sub_cancel, List.drop_succ_cons]
      · have ht2 : ¬tierLE cml t2 = true := by simp [tierLE, h2]
        rw [specFind, if_neg h2]
        by_cases h1 : tierLE cml t = true
        · rw [List.takeWhile_cons_of_pos h1, List.takeWhile_cons_of_neg ht2]
          simp
        · rw [List.takeWhile_cons_of_neg h1]
          simp

theorem chargeLoop_eq_specCharge (unit : ℚ) (ct : CostType) :
    ∀ (l : List PricingTier) (remaining cml : ℤ),
      chargeLoop unit ct l remaining cml = specCharge unit ct l remaining cml := by
  intro l
  induction l with
  | nil => intro remaining cml; rfl
  | cons t rest ih =>
    intro remaining cml
    match rest, ih with
    | [], _ =>
      by_cases h : 0 < remaining
      · simp [chargeLoop, specCharge, h]
      · simp [chargeLoop, specCharge, h]
    | t2 :: rest', ih =>
      by_cases h : 0 < remaining
      · rw [chargeLoop.eq_3, specCharge.eq_3, if_pos h, if_pos h]
        dsimp only
        rw [ih]
      · rw [chargeLoop.eq_3, specCharge.eq_3, if_neg h, if_neg h]

theorem specCharge_zero (unit : ℚ) (ct : CostType) :
    ∀ (l : List PricingTier) (cml : ℤ), specCharge unit ct l 0 cml = 0 := by
  intro l cml
  match l with
  | [] => rfl
  | [t] => simp [specCharge]
  | t :: t2 :: rest => simp [specCharge]

theorem calculateTieredCost_eq_spec (tokens cml : ℤ) (tiers : List PricingTier)
    (unit : ℚ) (ct : CostType)
    (hsort : List.Chain' (fun a b => a.threshold ≤ b.threshold) tiers) :
    calculateTieredCost tokens cml tiers unit ct =
      specTieredCost tokens cml tiers unit ct := by
  rw [calculateTieredCost, specTieredCost]
  by_cases h : tokens = 0 ∨ tiers = []
  · rw [if_pos h]
    rcases h with h | h
    · subst h
      rw [specCharge_zero]
    · subst h
      rfl
  · rw [if_neg h, chargeLoop_eq_specCharge, findStartIdx_eq,
      ← specFind_eq_drop cml tiers hsort]

/-- C1: for every tiered-priced model, `calculate_cost` charges a
call's tokens tier-by-tier starting at the tier the cumulative count
already falls into, exactly as the specification's algorithm describes
(the tier search, the `min(remaining, next_threshold - cumulative)`
chunking, and the final tier absorbing the rest); in particular, with
tiers `[{0,$10},{1000,$5}]` at a per-1000-token unit, cumulative input
800 and 500 new input tokens, the computed input cost is exactly $3.50.
The sortedness hypothesis holds for every cache entry because
`_load_pricing` sorts tiers by ascending threshold. -/
theorem C1_tiered_pricing :
    (∀ (tokens cml : ℤ) (tiers : List PricingTier) (unit : ℚ) (ct : CostType),
        List.Chain' (fun a b => a.threshold ≤ b.threshold) tiers →
        calculateTieredCost tokens cml tiers unit ct =
          specTieredCost tokens cml tiers unit ct) ∧
      calculate_cost [("Mock:m", .tiered 1000 [⟨0, 10, 10⟩, ⟨1000, 5, 5⟩])]
        "Mock:m" 500 0 800 0 = (7/2, 0, 7/2) := by
  constructor
  · intro tokens cml tiers unit ct hsort
    exact calculateTieredCost_eq_spec tokens cml tiers unit ct hsort
  · norm_num [calculate_cost, calculateTieredCost, findStartIdx, findStartIdxAux,
      chargeLoop, rateOf, intMin, List.lookup, List.cons_ne_nil]

/-- Witness for `C1_tiered_pricing`: the specification example
instantiates the hypotheses (its tier table is sorted). -/
theorem C1_tiered_pricing_witness :
    calculateTieredCost 500 800 [⟨0, 10, 10⟩, ⟨1000, 5, 5⟩] 1000 .input =
      specTieredCost 500 800 [⟨0, 10, 10⟩, ⟨1000, 5, 5⟩] 1000 .input :=
  C1_tiered_pricing.1 500 800 [⟨0, 10, 10⟩, ⟨1000, 5, 5⟩] 1000 .input
    (by norm_num [List.chain'_cons, List.chain'_singleton])

/-- C10: a `model_key` absent from the pricing cache, or present with a
type that is neither simple nor tiered, is billed at exactly
`(0.0, 0.0, 0.0)` — no error is raised. -/
theorem C10_unknown_model_zero_cost :
    ∀ (cache : List (String × Pricing)) (key : String) (it ot ci co : ℤ),
      cache.lookup key = none ∨ cache.lookup key = some .other →
      calculate_cost cache key it ot ci co = (0, 0, 0) := by
  intro cache key it ot ci co h
  rcases h with h | h <;> simp only [calculate_cost, h]

/-- Witness for `C10_unknown_model_zero_cost` at an empty cache. -/
theorem C10_unknown_model_zero_cost_witness :
    calculate_cost [] "OpenAI:gpt-4o" 123 456 7 8 = (0, 0, 0) :=
  C10_unknown_model_zero_cost [] "OpenAI:gpt-4o" 123 456 7 8 (Or.inl rfl)

/-! ### Token-tracker theorems -/

/-- C9: `track_usage` terminates and appends exactly one record only
while no output file is configured.  Once `set_output_file` has been
called, `track_usage` — holding the non-reentrant `threading.Lock` —
calls `_save_to_file`, which calls `get_summary`, which tries to
acquire the same lock again: the call blocks forever (`none`) and no
record is ever appended.  This contradicts the code's own intent
(`_save_to_file` is documented as "called within lock" yet takes the
lock again via `get_summary`). -/
theorem C9_track_usage_terminates :
    ∀ (t : Tracker) (now provider model : String) (it ot : ℤ)
      (profile : Option String) (ic oc tc : ℚ),
      t.lockHeld = false →
      ((t.outputFile = false →
          (trackUsage t now provider model it ot profile ic oc tc).map
              (fun t' => t'.usage_history) =
            some (t.usage_history ++
              [⟨now, provider, model, it, ot, it + ot, profile, ic, oc, tc⟩])) ∧
        (t.outputFile = true →
          trackUsage t now provider model it ot profile ic oc tc = none)) := by
  intro t now provider model it ot profile ic oc tc hl
  constructor
  · intro hout
    simp [trackUsage, hl, hout]
  · intro hout
    simp [trackUsage, saveToFile, getSummary, hl, hout]

/-- Witness for `C9_track_usage_terminates`: a fresh tracker appends
one record; the same tracker after `set_output_file` deadlocks. -/
theorem C9_track_usage_terminates_witness :
    ((trackUsage Tracker.init "t0" "OpenAI" "gpt-4" 100 50 none 0 0 0).map
        (fun t' => t'.usage_history) =
      some [⟨"t0", "OpenAI", "gpt-4", 100, 50, 150, none, 0, 0, 0⟩]) ∧
      trackUsage { Tracker.init with outputFile := true }
        "t0" "OpenAI" "gpt-4" 100 50 none 0 0 0 = none := by
  constructor
  · have h := (C9_track_usage_terminates Tracker.init "t0" "OpenAI" "gpt-4"
      100 50 none 0 0 0 rfl).1 rfl
    simpa using h
  · exact (C9_track_usage_terminates { Tracker.init with outputFile := true }
      "t0" "OpenAI" "gpt-4" 100 50 none 0 0 0 rfl).2 rfl

/-! ### Steering-channel theorems -/

/-- The cursor file starts at `0.0` and `consume` never writes anything
smaller than the current value, so reachable cursor values are
non-negative. -/
theorem consume_nonneg (cursor ts : ℚ) (h : 0 ≤ cursor) : 0 ≤ consume cursor ts := by
  rw [consume]
  by_cases hc : ts ≠ 0 ∧ cursor < ts
  · rw [if_pos hc]; exact le_of_lt (lt_of_le_of_lt h hc.2)
  · rw [if_neg hc]; exact h

/-- C3: on the reachable (non-negative) cursor states, `consume(ts)`
persists `ts` as the new cursor iff `ts` is strictly greater than the
current cursor; consequently `consume(ts)` followed by `consume(ts2)`
with `ts2 < ts` leaves the cursor at `ts`. -/
theorem C3_steering_cursor_monotone :
    ∀ cursor ts ts2 : ℚ, 0 ≤ cursor →
      (((consumeW cursor ts).1 = true ↔ cursor < ts) ∧
        (cursor < ts → ts2 < ts → consume (consume cursor ts) ts2 = ts)) := by
  intro cursor ts ts2 h0
  constructor
  · constructor
    · intro hw
      by_cases hc : ts ≠ 0 ∧ cursor < ts
      · exact hc.2
      · rw [consumeW, if_neg hc] at hw
        exact absurd hw (by simp)
    · intro hlt
      have hne : ts ≠ 0 := by
        intro he
        rw [he] at hlt
        exact absurd h0 (not_le.mpr hlt)
      rw [consumeW, if_pos ⟨hne, hlt⟩]
  · intro h1 h2
    have hne : ts ≠ 0 := by
      intro he
      rw [he] at h1
      exact absurd h0 (not_le.mpr h1)
    have hinner : consume cursor ts = ts := by
      rw [consume, if_pos ⟨hne, h1⟩]
    rw [hinner, consume,
      if_neg (fun hc => absurd hc.2 (not_lt.mpr (le_of_lt h2)))]

/-- Witness for `C3_steering_cursor_monotone` at cursor 0, ts 5,
ts2 3. -/
theorem C3_steering_cursor_monotone_witness :
    (((consumeW 0 5).1 = true ↔ (0 : ℚ) < 5) ∧
      ((0 : ℚ) < 5 → (3 : ℚ) < 5 → consume (consume 0 5) 3 = 5)) :=
  C3_steering_cursor_monotone 0 5 3 (by norm_num)

/-- The fold of `_read_steering_entries` is an append of the per-line
contributions. -/
theorem readSteering_foldl_eq (lines : List RawLine) :
    ∀ acc : List SteerEnt,
      lines.foldl
        (fun out ln =>
          match ln with
          | .blank => out
          | .jsonLine ts txt => if txt ≠ [] then out ++ [⟨ts, txt⟩] else out
          | .malformed c => out ++ [⟨0, c⟩])
        acc = acc ++ lines.filterMap lineEntry := by
  induction lines with
  | nil => intro acc; simp
  | cons ln rest ih =>
    intro acc
    rw [List.foldl_cons, ih, List.filterMap_cons]
    cases ln with
    | blank => simp [lineEntry]
    | jsonLine ts txt =>
      by_cases ht : txt = []
      · simp [lineEntry, ht]
      · simp [lineEntry, ht]
    | malformed c => simp [lineEntry]

/-- `out[-limit:]` keeps at most `limit` elements when `limit ≥ 1`. -/
theorem pyTail_length_le {α : Type} (limit : ℕ) (l : List α) (h : 1 ≤ limit) :
    (pyTail limit l).length ≤ limit := by
  rw [pyTail, if_neg (by omega)]
  rw [List.length_drop]
  omega

/-- C5 counterexample: a steering log whose only line is not valid JSON
yields a singleton result — the malformed line is returned as a
fallback entry `{'ts': 0.0, 'text': line}`, not omitted as the claim
states. -/
theorem C5_malformed_not_skipped_cex :
    readSteeringEntries 50 [RawLine.malformed "oops not json".toList] =
      [⟨0, "oops not json".toList⟩] := by decide

/-- C5 (amended): reading recent steering entries never fails; blank
lines and JSON records with empty text are skipped, while a non-blank
line that is not a valid JSON record is included as a fallback entry
with timestamp 0.0 and the raw line as text; the result preserves file
order (newest last) and, for a requested count of at least 1, is
limited to the last `limit` entries. -/
theorem C5_read_steering_tolerant :
    ∀ (lines : List RawLine) (limit : ℕ),
      readSteeringEntries limit lines = pyTail limit (lines.filterMap lineEntry) ∧
        (1 ≤ limit → (readSteeringEntries limit lines).length ≤ limit) := by
  intro lines limit
  have hfold := readSteering_foldl_eq lines []
  have heq : readSteeringEntries limit lines =
      pyTail limit (lines.filterMap lineEntry) := by
    rw [readSteeringEntries, hfold]
    simp
  refine ⟨heq, fun hlim => ?_⟩
  rw [heq]
  exact pyTail_length_le limit _ hlim

/-- Witness for `C5_read_steering_tolerant`: a log with a blank line, a
valid record, a malformed line and an empty-text record, read with
limit 2. -/
theorem C5_read_steering_tolerant_witness :
    (readSteeringEntries 2
        [RawLine.blank, RawLine.jsonLine 3 "check auth".toList,
          RawLine.malformed "raw".toList, RawLine.jsonLine 9 []] =
      pyTail 2
        ([RawLine.blank, RawLine.jsonLine 3 "check auth".toList,
          RawLine.malformed "raw".toList, RawLine.jsonLine 9 []].filterMap lineEntry)) ∧
      (1 ≤ 2 → (readSteeringEntries 2
        [RawLine.blank, RawLine.jsonLine 3 "check auth".toList,
          RawLine.malformed "raw".toList, RawLine.jsonLine 9 []]).length ≤ 2) :=
  C5_read_steering_tolerant
    [RawLine.blank, RawLine.jsonLine 3 "check auth".toList,
      RawLine.malformed "raw".toList, RawLine.jsonLine 9 []] 2

/-! ### Urgent-steering classifier lemmas -/

/-- Anything `findUrgentIn` returns is an entry of the scanned list,
strictly newer than the cursor, and matches the urgency classifier. -/
theorem findUrgentIn_spec (lastTs : ℚ) :
    ∀ (l : List SteerEnt) (e : SteerEnt), findUrgentIn lastTs l = some e →
      e ∈ l ∧ lastTs < e.ts ∧ steerMatches e.text = true := by
  intro l
  induction l with
  | nil =>
    intro e h
    exact absurd h (by rw [findUrgentIn]; exact Option.noConfusion)
  | cons x rest ih =>
    intro e h
    rw [findUrgentIn] at h
    by_cases h1 : x.ts ≤ lastTs
    · rw [if_pos h1] at h
      obtain ⟨hm, hts, hmt⟩ := ih e h
      exact ⟨List.mem_cons_of_mem x hm, hts, hmt⟩
    · rw [if_neg h1] at h
      by_cases h2 : steerMatches x.text = true
      · rw [if_pos h2] at h
        cases h
        exact ⟨List.mem_cons_self x rest, lt_of_not_le h1, h2⟩
      · rw [if_neg h2] at h
        obtain ⟨hm, hts, hmt⟩ := ih e h
        exact ⟨List.mem_cons_of_mem x hm, hts, hmt⟩

/-- Same facts for `_find_latest_urgent_steer` itself. -/
theorem findLatestUrgentSteer_spec (lastTs : ℚ) (entries : List SteerEnt)
    (e : SteerEnt) (h : findLatestUrgentSteer lastTs entries = some e) :
    e ∈ entries ∧ lastTs < e.ts ∧ steerMatches e.text = true := by
  obtain ⟨hm, hts, hmt⟩ := findUrgentIn_spec lastTs entries.reverse e h
  exact ⟨List.mem_reverse.mp hm, hts, hmt⟩

/-- A text containing the marker `"whole codebase"` is classified
global by `_is_global_steer`. -/
theorem isGlobal_whole_codebase (t : Str)
    (h : "whole codebase".toList <:+: t) : isGlobalSteer t = true := by
  have hmap := h.map Char.toLower
  have hmark : "whole codebase".toList.map Char.toLower = "whole codebase".toList := by
    decide
  rw [hmark] at hmap
  have hne : ¬(t.map Char.toLower = []) := by
    intro he
    rw [he] at hmap
    have hlen := hmap.length_le
    simp at hlen
  have hany : globalMarkers.any
      (fun k => containsSub k (t.map Char.toLower)) = true := by
    apply List.any_eq_true.mpr
    refine ⟨"whole codebase".toList, ?_, ?_⟩
    · simp [globalMarkers]
    · exact decide_eq_true hmap
  rw [isGlobalSteer]
  simp only [if_neg hne, hany, if_pos]

/-- When every entry of the steering log is non-global, the callback's
steering fragment never requests an abort. -/
theorem cbSteer_no_abort_of_targeted (entries : List SteerEnt)
    (status : String) (st : CbSt)
    (h : ∀ e ∈ entries, isGlobalSteer e.text = false) :
    (cbSteerStep entries status st).abortRequested = st.abortRequested := by
  rw [cbSteerStep]
  by_cases hmil : status ∈ cbMilestones
  · rw [if_pos hmil]
    cases hfind : findLatestUrgentSteer st.cursor entries with
    | none => rfl
    | some ent =>
      have hmem := (findLatestUrgentSteer_spec st.cursor entries ent hfind).1
      have hng := h ent hmem
      dsimp only
      by_cases hc : ent.text ≠ [] ∧ some ent.text ≠ st.lastReplan
      · rw [if_pos hc, if_neg (by rw [hng]; exact Bool.false_ne_true)]
      · rw [if_neg hc]
  · rw [if_neg hmil]

/-! ### Batch-planner lemmas -/

/-- `planStep3` only ever appends to the batch it is given. -/
theorem planStep3_append (env : PlanEnv) (n : ℕ) :
    ∀ (ds : List Candidate) (prepared : List InvItem) (existing : List Str)
      (k : ℕ),
      ∃ l', planStep3 env n ds prepared existing k = prepared ++ l' := by
  intro ds
  induction ds with
  | nil =>
    intro prepared existing k
    exact ⟨[], by simp [planStep3]⟩
  | cons d ds ih =>
    intro prepared existing k
    by_cases hfull : n ≤ prepared.length
    · exact ⟨[], by simp [planStep3, hfull]⟩
    · simp only [planStep3, if_neg hfull]
      split
      · exact ih _ _ _
      · obtain ⟨l', hl⟩ := ih _ _ _
        exact ⟨_, by rw [hl, List.append_assoc]⟩

/-- `planStep3` never grows the batch beyond `n`. -/
theorem planStep3_length (env : PlanEnv) (n : ℕ) :
    ∀ (ds : List Candidate) (prepared : List InvItem) (existing : List Str)
      (k : ℕ),
      prepared.length ≤ n →
      (planStep3 env n ds prepared existing k).length ≤ n := by
  intro ds
  induction ds with
  | nil =>
    intro prepared existing k h
    simpa [planStep3] using h
  | cons d ds ih =>
    intro prepared existing k h
    by_cases hfull : n ≤ prepared.length
    · simpa [planStep3, hfull] using h
    · simp only [planStep3, if_neg hfull]
      split
      · exact ih _ _ _ (by omega)
      · exact ih _ _ _
          (by simp only [List.length_append, List.length_cons,
                List.length_nil]; omega)

/-- When an unconsumed urgent directive exists at planning time, the
assembled batch starts with its priority-10 ad-hoc frame and the
cursor is advanced to its timestamp. -/
theorem planInvestigations_urgent (env : PlanEnv) (n : ℕ) (ent : SteerEnt)
    (h0 : 0 ≤ env.cursor) (hn : 1 ≤ n)
    (hfind : findLatestUrgentSteer env.cursor
      (readSteeringEntries 80 env.steerLines) = some ent) :
    (planInvestigations env n).1.head? = some (adhocSteerItem ent.text) ∧
      (planInvestigations env n).2 = ent.ts := by
  have hts : env.cursor < ent.ts :=
    (findLatestUrgentSteer_spec _ _ _ hfind).2.1
  have hne : ent.ts ≠ 0 := by
    intro he
    rw [he] at hts
    exact absurd h0 (not_le.mpr hts)
  have hcons : consume env.cursor ent.ts = ent.ts := by
    rw [consume, if_pos ⟨hne, hts⟩]
  obtain ⟨m, rfl⟩ : ∃ m, n = m + 1 := ⟨n - 1, by omega⟩
  simp only [planInvestigations, hfind]
  by_cases hfull : m + 1 ≤ ([adhocSteerItem ent.text] ++
      (if env.hasStore then
        (env.pending.take (m + 1)).map
          (fun it => (⟨it.question, it.artifact_refs, it.priority, it.rationale,
            "aspect", "medium", it.frame_id⟩ : InvItem))
      else [])).length
  · rw [if_pos hfull]
    constructor
    · rw [List.singleton_append, List.take_succ_cons, List.head?_cons]
    · exact hcons
  · rw [if_neg hfull]
    constructor
    · obtain ⟨l', hl⟩ := planStep3_append env (m + 1) _ _ _ 0
      rw [hl, List.singleton_append, List.cons_append, List.head?_cons]
    · exact hcons

/-- C7: if an unconsumed urgent steering directive exists at
batch-planning time (timestamp strictly newer than the cursor, text
matching the urgent classifier — i.e. `_find_latest_urgent_steer`
returns it), the first element of the planned batch is the ad-hoc
frame carrying the directive's text with priority 10, and the cursor
is advanced to the directive's timestamp. -/
theorem C7_urgent_steer_first_and_consumed :
    ∀ (env : PlanEnv) (n : ℕ) (ent : SteerEnt),
      0 ≤ env.cursor → 1 ≤ n →
      findLatestUrgentSteer env.cursor
        (readSteeringEntries 80 env.steerLines) = some ent →
      (planInvestigations env n).1.head? = some (adhocSteerItem ent.text) ∧
        (planInvestigations env n).2 = ent.ts :=
  fun env n ent h0 hn hfind => planInvestigations_urgent env n ent h0 hn hfind

/-- Witness for `C7_urgent_steer_first_and_consumed` on a log holding
one urgent directive "check auth" at timestamp 5. -/
theorem C7_urgent_steer_first_and_consumed_witness :
    (planInvestigations envSteerPlan 2).1.head? =
        some (adhocSteerItem "check auth".toList) ∧
      (planInvestigations envSteerPlan 2).2 = 5 :=
  C7_urgent_steer_first_and_consumed envSteerPlan 2 ⟨5, "check auth".toList⟩
    (by norm_num [envSteerPlan]) (by norm_num) (by decide)

/-- C8: the batch planner returns at most `n` items for every requested
batch size (even counting the urgent steering frame, resumed PLANNED
frames and strategist candidates), and an empty batch is valid: the
execution loop stops and reports completion. -/
theorem C8_batch_size_cap :
    (∀ (env : PlanEnv) (n : ℕ), (planInvestigations env n).1.length ≤ n) ∧
      (∀ (env : RunEnv) (fuel : ℕ), env.timeLimit = 0 → env.plan 0 = [] →
        runLoop env (fuel + 1) = some (.completed, initSt)) := by
  constructor
  · intro env n
    cases hfind : findLatestUrgentSteer env.cursor
        (readSteeringEntries 80 env.steerLines) with
    | none =>
      simp only [planInvestigations, hfind]
      by_cases hfull : n ≤ (([] : List InvItem) ++
          (if env.hasStore then
            (env.pending.take n).map
              (fun it => (⟨it.question, it.artifact_refs, it.priority, it.rationale,
                "aspect", "medium", it.frame_id⟩ : InvItem))
          else [])).length
      · rw [if_pos hfull]
        simp [List.length_take]
      · rw [if_neg hfull]
        exact planStep3_length env n _ _ _ 0 (by omega)
    | some ent =>
      simp only [planInvestigations, hfind]
      by_cases hfull : n ≤ ([adhocSteerItem ent.text] ++
          (if env.hasStore then
            (env.pending.take n).map
              (fun it => (⟨it.question, it.artifact_refs, it.priority, it.rationale,
                "aspect", "medium", it.frame_id⟩ : InvItem))
          else [])).length
      · rw [if_pos hfull]
        simp [List.length_take]
      · rw [if_neg hfull]
        exact planStep3_length env n _ _ _ 0 (by omega)
  · intro env fuel h0 hplan
    rw [runLoop, runLoopAux]
    simp [h0, hplan]

/-- Witness for `C8_batch_size_cap`: the sample planning environment
yields at most 3 items, and a quiet run whose planner proposes nothing
completes immediately. -/
theorem C8_batch_size_cap_witness :
    (planInvestigations envSteerPlan 3).1.length ≤ 3 ∧
      runLoop envQuiet 1 = some (.completed, initSt) :=
  ⟨C8_batch_size_cap.1 envSteerPlan 3, C8_batch_size_cap.2 envQuiet 0 rfl rfl⟩

/-- C4: a directive whose text contains "whole codebase" is classified
global and — arriving fresh at a callback milestone mid-investigation —
triggers an abort request on the agent; the directive "check the login
function" is not classified global, a log of such targeted directives
never makes the callback abort in-flight work, and at planning time the
directive is instead queued as the first (priority-10) frame of the
next batch. -/
theorem C4_global_vs_targeted_steering :
    (∀ t : Str, "whole codebase".toList <:+: t → isGlobalSteer t = true) ∧
      (∀ (entries : List SteerEnt) (status : String) (st : CbSt) (ent : SteerEnt),
        status ∈ cbMilestones →
        findLatestUrgentSteer st.cursor entries = some ent →
        "whole codebase".toList <:+: ent.text →
        some ent.text ≠ st.lastReplan →
        (cbSteerStep entries status st).abortRequested = true) ∧
      isGlobalSteer "check the login function".toList = false ∧
      (∀ (entries : List SteerEnt) (status : String) (st : CbSt),
        (∀ e ∈ entries, isGlobalSteer e.text = false) →
        (cbSteerStep entries status st).abortRequested = st.abortRequested) ∧
      (∀ (env : PlanEnv) (ts : ℚ) (n : ℕ),
        env.steerLines = [RawLine.jsonLine ts "check the login function".toList] →
        0 ≤ env.cursor → env.cursor < ts → 1 ≤ n →
        (planInvestigations env n).1.head? =
          some (adhocSteerItem "check the login function".toList)) := by
  refine ⟨fun t h => isGlobal_whole_codebase t h, ?_, by decide,
    fun entries status st h => cbSteer_no_abort_of_targeted entries status st h, ?_⟩
  · intro entries status st ent hmil hfind hinf hfresh
    have htne : ent.text ≠ [] := by
      intro he
      rw [he] at hinf
      have hlen := hinf.length_le
      simp at hlen
    rw [cbSteerStep, if_pos hmil, hfind]
    dsimp only
    rw [if_pos ⟨htne, hfresh⟩, if_pos (isGlobal_whole_codebase ent.text hinf)]
  · intro env ts n hlines h0 hts hn
    have hread : readSteeringEntries 80 env.steerLines =
        [⟨ts, "check the login function".toList⟩] := by
      rw [hlines, readSteeringEntries]
      rw [List.foldl_cons, List.foldl_nil]
      dsimp only
      rw [if_pos (by decide : "check the login function".toList ≠ [])]
      rfl
    have hmatch : steerMatches "check the login function".toList = true := by
      decide
    have hfind : findLatestUrgentSteer env.cursor
        (readSteeringEntries 80 env.steerLines) =
        some ⟨ts, "check the login function".toList⟩ := by
      rw [hread, findLatestUrgentSteer, List.reverse_singleton, findUrgentIn,
        if_neg (not_le.mpr hts), if_pos hmatch]
    exact (planInvestigations_urgent env n ⟨ts, "check the login function".toList⟩
      h0 hn hfind).1

/-- Witness for `C4_global_vs_targeted_steering` on the directive
"audit the whole codebase" (global, aborts) and "check the login
function" (targeted, queued first). -/
theorem C4_global_vs_targeted_steering_witness :
    isGlobalSteer "audit the whole codebase".toList = true ∧
      (cbSteerStep [⟨5, "audit the whole codebase".toList⟩] "analyzing"
        ⟨none, 0, false⟩).abortRequested = true ∧
      (cbSteerStep [⟨5, "check the login function".toList⟩] "analyzing"
        ⟨none, 0, false⟩).abortRequested = false ∧
      (planInvestigations envLoginPlan 1).1.head? =
        some (adhocSteerItem "check the login function".toList) := by
  refine ⟨C4_global_vs_targeted_steering.1 "audit the whole codebase".toList
      (by decide), ?_, ?_, ?_⟩
  · exact C4_global_vs_targeted_steering.2.1
      [⟨5, "audit the whole codebase".toList⟩] "analyzing" ⟨none, 0, false⟩
      ⟨5, "audit the whole codebase".toList⟩ (by decide) (by decide) (by decide)
      (by decide)
  · exact C4_global_vs_targeted_steering.2.2.2.1
      [⟨5, "check the login function".toList⟩] "analyzing" ⟨none, 0, false⟩
      (by decide)
  · exact C4_global_vs_targeted_steering.2.2.2.2 envLoginPlan 5 1 rfl
      (by norm_num [envLoginPlan]) (by norm_num [envLoginPlan]) (by norm_num)

/-! ### Execution-loop theorems -/

/-- C2 counterexample: with a one-minute budget already exceeded
(elapsed 2 minutes at the very first budget check), the loop stops
before starting any frame — the trace is empty — but the session
finalizes with status `completed`, not `interrupted`: `time_up` is set
only by `_TimeLimitReached` raised inside a worker callback, never by
the pre-frame budget checks (agent.py lines 1585-1591, 2092). -/
theorem C2_deadline_past_reports_completed_cex :
    runLoop envPastDeadline 1 = some (.completed, ⟨1, 0, 0, none, [], []⟩) ∧
      FinalSt.completed ≠ FinalSt.interrupted := by
  constructor
  · rfl
  · decide

/-- C2 (amended): if the wall-clock limit has already elapsed when the
loop checks the budget, the loop stops before starting any new frame,
but the terminal status reported is `completed`; `interrupted` is
reported only when the limit is detected inside a worker progress
callback (the `_TimeLimitReached` unwind), as in the second
conjunct. -/
theorem C2_time_budget_stop :
    (∀ (env : RunEnv) (fuel : ℕ) (st : RunSt) (round : ℕ),
        env.timeLimit ≠ 0 → env.timeLimit ≤ env.clock st.clockIdx →
        runLoopAux env (fuel + 1) st round =
          some (.completed, { st with clockIdx := st.clockIdx + 1 })) ∧
      (∀ (env : RunEnv) (fuel : ℕ) (inv : InvItem) (rest : List InvItem),
        env.timeLimit = 0 → env.plan 0 = inv :: rest →
        env.findUrgent 0 = none → truthyFid inv.frame_id = none →
        env.worker 0 = .timeLimit →
        runLoop env (fuel + 1) =
          some (.interrupted, ⟨0, 1, 1, none, [], [Ev.workerCall inv.goal]⟩)) := by
  constructor
  · intro env fuel st round h1 h2
    have hd : decide (env.timeLimit ≤ env.clock st.clockIdx) = true :=
      decide_eq_true h2
    rw [runLoopAux]
    simp [h1, hd]
  · intro env fuel inv rest h0 hplan hurg hfid hw
    rw [runLoop, runLoopAux]
    simp [h0, hplan, execBatch, hurg, hfid, hw, initSt]

/-- Witness for `C2_time_budget_stop`: the past-deadline run stops at
once with status completed; the callback-timeout run reports
interrupted. -/
theorem C2_time_budget_stop_witness :
    runLoopAux envPastDeadline 1 initSt 0 =
        some (.completed, { initSt with clockIdx := 1 }) ∧
      runLoop envCallbackTimeout 1 =
        some (.interrupted, ⟨0, 1, 1, none, [], [Ev.workerCall "g".toList]⟩) := by
  constructor
  · exact C2_time_budget_stop.1 envPastDeadline 0 initSt 0
      (by norm_num [envPastDeadline]) (by norm_num [envPastDeadline, initSt])
  · exact C2_time_budget_stop.2 envCallbackTimeout 0
      ⟨"g".toList, [], 5, [], "aspect", "medium", none⟩ [] rfl rfl rfl rfl rfl

/-- C6: a frame whose truthy `frame_id` was already executed in this
run is marked DROPPED and skipped with no worker invocation (first
conjunct: processing such a frame only appends the DROPPED status
update and moves on); in particular, when the same `frame_id` appears
twice in one batch, the first occurrence runs IN_PROGRESS → worker →
DONE and the second is DROPPED with the worker never called for it
(second conjunct: exactly one `workerCall` in the trace). -/
theorem C6_duplicate_frame_dropped :
    (∀ (env : RunEnv) (inv : InvItem) (rest : List InvItem) (st : RunSt)
        (f : Str),
        truthyFid inv.frame_id = some f → f ∈ st.executed →
        env.findUrgent st.urgIdx = none → env.timeLimit = 0 →
        env.hasStore = true →
        execBatch env (inv :: rest) st =
          execBatch env rest
            { st with urgIdx := st.urgIdx + 1,
                      trace := st.trace ++ [Ev.statusUpd f .dropped] }) ∧
      (∀ (env : RunEnv) (g1 g2 : Str) (fa1 fa2 : List Str) (p1 p2 : ℤ)
          (r1 r2 : Str) (c1 c2 e1 e2 : String) (f : Str),
        f ≠ [] → env.timeLimit = 0 → (∀ k, env.findUrgent k = none) →
        env.worker 0 = .done false → env.hasStore = true →
        execBatch env
            [⟨g1, fa1, p1, r1, c1, e1, some f⟩, ⟨g2, fa2, p2, r2, c2, e2, some f⟩]
            initSt =
          (⟨0, 2, 1, none, [f],
            [Ev.statusUpd f .in_progress, Ev.workerCall g1,
              Ev.statusUpd f .done, Ev.statusUpd f .dropped]⟩, false)) := by
  constructor
  · intro env inv rest st f hfid hmem hurg h0 hs
    rw [execBatch]
    simp [hurg, h0, hfid, hmem, hs]
  · intro env g1 g2 fa1 fa2 p1 p2 r1 r2 c1 c2 e1 e2 f hf h0 hurg hw hs
    simp [execBatch, hurg, h0, hw, hs, truthyFid, hf, initSt]

/-- Witness for `C6_duplicate_frame_dropped`: a quiet run executing a
batch with the same frame id twice. -/
theorem C6_duplicate_frame_dropped_witness :
    execBatch envQuiet
        [⟨"g1".toList, [], 5, [], "aspect", "medium", some "f1".toList⟩,
          ⟨"g2".toList, [], 5, [], "aspect", "medium", some "f1".toList⟩]
        initSt =
      (⟨0, 2, 1, none, ["f1".toList],
        [Ev.statusUpd "f1".toList .in_progress, Ev.workerCall "g1".toList,
          Ev.statusUpd "f1".toList .done, Ev.statusUpd "f1".toList .dropped]⟩,
        false) :=
  C6_duplicate_frame_dropped.2 envQuiet "g1".toList "g2".toList [] [] 5 5 [] []
    "aspect" "aspect" "medium" "medium" "f1".toList (by decide) rfl
    (fun _ => rfl) rfl rfl

end Hound
